import Mathlib

/-!
Verification of the build-orchestration core of the program-metadata HTTP
service.  The embedding follows `src/build.rs` (the streaming pipeline used
by the worker loop) and, where a claim compares the two code paths, the
content-hash step of the older endpoint pipeline in `src/main.rs`.

External collaborators (the sled key-value store, the BlakeTwo256 hasher,
the cargo-metadata subprocess, the docker build subprocess, the filesystem
and the per-request mpsc channel) are modelled as explicit data: a build
environment record lists the outcome of every external interaction, and the
pipeline is a pure function of that record, the store contents and the
responder state.
-/

/-- The sled database, as the pipeline sees it: a key-value map from hash
bytes to the serialized root-package metadata.  `insert` is sled's
overwrite-by-key upsert. -/
abbrev Store := List (List Nat × String)

/-- Overwrite-by-key insert (sled `Db::insert`). -/
def Store.insert (db : Store) (k : List Nat) (v : String) : Store :=
  if db.any (fun kv => kv.1 == k) then
    db.map (fun kv => if kv.1 == k then (k, v) else kv)
  else db ++ [(k, v)]

/-- Model of `sp_core::H256`: a 256-bit (32-byte) value.  The fixed size is
a property of the digest function below, proved in `blakeTwo256_val_length`. -/
structure H256 where
  val : List Nat
deriving DecidableEq

/-- Model of the external `BlakeTwo256` hasher (`sp_runtime`): a computable
stand-in digest.  The development uses only that it is a fixed-size
(32-byte) deterministic function of its input byte sequence; no claim
depends on the actual Blake2 compression function. -/
def blakeTwo256 (input : List Nat) : H256 :=
  ⟨(List.range 32).map
    (fun i => (input.foldl (fun acc b => (acc * 31 + b + i) % 256)
      ((i + input.length) % 256)) % 256)⟩

/-- Byte encoding of a Rust string (`String::as_bytes`).  The strings that
occur in this development are ASCII, where the character code and the UTF-8
byte coincide. -/
def strBytes (s : String) : List Nat :=
  s.data.map Char.toNat

/-- Model of `String::from_utf8_lossy` restricted to the byte sequences in
this development: bytes below 128 decode to themselves, any other byte to
the replacement character. -/
def fromUtf8Lossy (bytes : List Nat) : String :=
  ⟨bytes.map (fun b => if b < 128 then Char.ofNat b else Char.ofNat 0xFFFD)⟩

/-- Model of `serde_json::Number` as the `as_u64` view sees it: either an
integer representable as `u64`, or anything else (negative integers and
non-integer floats), for which `as_u64` returns `None`. -/
inductive JNumber
  | uint (n : Nat)
  | other
deriving DecidableEq

/-- `serde_json::Number::as_u64`. -/
def numberAsU64 : JNumber → Option Nat
  | .uint n => some n
  | .other => none

/-- Model of `serde_json::value::Value`. -/
inductive Json
  | null
  | bool (b : Bool)
  | num (v : JNumber)
  | str (s : String)
  | arr (xs : List Json)
  | obj (fields : List (String × Json))

/-- Key lookup in a JSON object (`serde_json::Map::get`; parsed maps have
unique keys). -/
def jGet (fields : List (String × Json)) (k : String) : Option Json :=
  (fields.find? (fun kv => kv.1 == k)).map (fun kv => kv.2)

/-- The `[package.metadata.entropy-program]` record of `src/build.rs`
(struct `EntropyProgramMetadata`, lines 283-290).  `version_number` models
`Option<u8>`: extraction only ever stores values below 256. -/
structure EntropyProgramMetadata where
  docker_image : Option String := none
  configuration_schema : Option String := none
  auxiliary_data_schema : Option String := none
  oracle_data_pointer : Option String := none
  version_number : Option Nat := none
deriving DecidableEq

/-- `EntropyProgramMetadata::to_bytes` (src/build.rs lines 292-301): the
three schema/pointer strings' bytes concatenated, followed by the single
version byte; absent fields default to the empty string and 0. -/
def EntropyProgramMetadata.to_bytes (m : EntropyProgramMetadata) : List Nat :=
  strBytes (m.configuration_schema.getD "") ++
  strBytes (m.auxiliary_data_schema.getD "") ++
  strBytes (m.oracle_data_pointer.getD "") ++
  [m.version_number.getD 0]

/-- The version-number conversion in `extract_metadata` (src/build.rs lines
331-337): `n.as_u64().map(|v| v.try_into().ok()).unwrap_or(None)`. -/
def u8FromNumber (v : JNumber) : Option Nat :=
  match numberAsU64 v with
  | some n => if n < 256 then some n else none
  | none => none

/-- `extract_metadata` (src/build.rs lines 309-341): reads the optional
`entropy-program` object out of the package metadata value and picks out
the five optional fields; every failed pattern leaves the default. -/
def extract_metadata (metadata : Json) : EntropyProgramMetadata :=
  match metadata with
  | .obj m =>
    match jGet m "entropy-program" with
    | some (.obj p) =>
      { docker_image :=
          match jGet p "docker-image" with
          | some (.str s) => some s
          | _ => none
        configuration_schema :=
          match jGet p "configuration-schema" with
          | some (.str s) => some s
          | _ => none
        auxiliary_data_schema :=
          match jGet p "auxiliary-data-schema" with
          | some (.str s) => some s
          | _ => none
        oracle_data_pointer :=
          match jGet p "oracle-data-pointer" with
          | some (.str s) => some s
          | _ => none
        version_number :=
          match jGet p "version-number" with
          | some (.num v) => u8FromNumber v
          | _ => none }
    | _ => {}
  | _ => {}

/-- The `entropy-program` object of a package metadata value, when present
(the guard pattern of `extract_metadata`). -/
def entropyProgramSection (metadata : Json) : Option (List (String × Json)) :=
  match metadata with
  | .obj m =>
    match jGet m "entropy-program" with
    | some (.obj p) => some p
    | _ => none
  | _ => none

/-- The error enum of `src/build.rs` (lines 343-368).  Payloads of the
variants that wrap a foreign error type (`cargo_metadata::Error`,
`serde_json::Error`, `sled::Error`, `hex::FromHexError`, `std::io::Error`)
are modelled as their display strings.  The source names the io variant
`Io`; it is renamed `IoError` here. -/
inductive Error
  | GitClone (detail : String)
  | MetadataMissingRootPackage
  | Metadata (e : String)
  | Json (e : String)
  | Db (e : String)
  | Hex (e : String)
  | IoError (e : String)
  | CompilationFailed (detail : String)
  | NoStdOut
  | NoStdErr
  | Mpsc
deriving DecidableEq

/-- The constructor (kind) of an error, forgetting the payload. -/
inductive ErrorKind
  | GitClone
  | MetadataMissingRootPackage
  | Metadata
  | Json
  | Db
  | Hex
  | IoError
  | CompilationFailed
  | NoStdOut
  | NoStdErr
  | Mpsc
deriving DecidableEq

def Error.kind : Error → ErrorKind
  | .GitClone _ => .GitClone
  | .MetadataMissingRootPackage => .MetadataMissingRootPackage
  | .Metadata _ => .Metadata
  | .Json _ => .Json
  | .Db _ => .Db
  | .Hex _ => .Hex
  | .IoError _ => .IoError
  | .CompilationFailed _ => .CompilationFailed
  | .NoStdOut => .NoStdOut
  | .NoStdErr => .NoStdErr
  | .Mpsc => .Mpsc

/-- The `BuildResponse` enum of `src/build.rs` (lines 49-61). -/
inductive BuildResponse
  | StdOut (s : String)
  | StdErr (s : String)
  | Success (hash : H256) (binary : List Nat) (binary_filename : String)
deriving DecidableEq

/-- An item on the per-request channel.  The channel of `src/build.rs`
carries `Result<String, Error>` where the `Ok` string is the
serde-serialized `BuildResponse`; serialization of these values is total
and injective, so we keep the response itself. -/
inductive ChannelItem
  | ok (resp : BuildResponse)
  | err (e : Error)
deriving DecidableEq

/-- Chunk events: the streamed stdout/stderr lines. -/
def isChunkItem : ChannelItem → Bool
  | .ok (.StdOut _) => true
  | .ok (.StdErr _) => true
  | _ => false

/-- Terminal events: a `Success` response or an error item. -/
def isTerminalItem : ChannelItem → Bool
  | .ok (.Success _ _ _) => true
  | .err _ => true
  | _ => false

/-- The `BuildResponder` of `src/build.rs` (lines 63-81): a bounded
`futures` mpsc sender.  `sendOk n` is the channel's answer to the n-th
`try_send` since the channel was created (`false` models a full buffer or
a disconnected receiver); `delivered` is the sequence of items the channel
accepted, in order. -/
structure BuildResponder where
  sendOk : Nat → Bool
  sent : Nat := 0
  delivered : List ChannelItem := []

/-- `BuildResponder::try_send` (src/build.rs lines 68-74).  Returns the
updated responder and whether the send was accepted. -/
def BuildResponder.try_send (r : BuildResponder) (resp : BuildResponse) :
    BuildResponder × Bool :=
  if r.sendOk r.sent then
    ({ r with sent := r.sent + 1, delivered := r.delivered ++ [.ok resp] }, true)
  else
    ({ r with sent := r.sent + 1 }, false)

/-- `BuildResponder::try_send_error` (src/build.rs lines 76-80): a rejected
send is only logged. -/
def BuildResponder.try_send_error (r : BuildResponder) (e : Error) :
    BuildResponder :=
  if r.sendOk r.sent then
    { r with sent := r.sent + 1, delivered := r.delivered ++ [.err e] }
  else
    { r with sent := r.sent + 1 }

/-- One read from a subprocess stream in the drain loop of
`ProgramBuilder::add_program` (src/build.rs lines 189-225).  A stream whose
read list is exhausted reads 0 bytes (end of data).  `data none` is a read
of more than 0 bytes that is not valid UTF-8 (logged and dropped by the
loop); `data (some s)` is a read that decodes to the text `s`. -/
inductive ReadRes
  | readErr
  | data (text : Option String)
deriving DecidableEq

/-- The stderr half of one iteration of the drain loop (src/build.rs lines
207-221): either the loop continues (left: remaining stderr reads and the
updated responder) or the iteration ends the loop (right: the loop's
result, `false` marking the io-error exit taken by the `?` operator). -/
def stderrStep (errs : List ReadRes) (r : BuildResponder) :
    (List ReadRes × BuildResponder) ⊕ (BuildResponder × Bool) :=
  match errs with
  | [] => .inl ([], r)
  | .readErr :: _ => .inr (r, false)
  | .data none :: et => .inl (et, r)
  | .data (some s) :: et =>
    let p := r.try_send (.StdErr s)
    if p.2 then .inl (et, p.1) else .inr (p.1, true)

/-- The stream-drain loop of `ProgramBuilder::add_program` (src/build.rs
lines 189-225), indexed by a fuel that `streamLoop` instantiates above the
total stream length (theorem `streamLoopF_fuel_independent` shows any
sufficient fuel gives the same result).  Each iteration reads stdout then
stderr; a read error aborts the pipeline (second component `false`); a
rejected chunk send breaks out of the loop (the process keeps running);
the loop ends normally when both streams read 0 bytes in the same
iteration. -/
def streamLoopF : Nat → List ReadRes → List ReadRes → BuildResponder →
    BuildResponder × Bool
  | _, [], [], r => (r, true)
  | 0, _, _, r => (r, true)
  | fuel + 1, [], errs, r =>
    match stderrStep errs r with
    | .inl (et, r2) => streamLoopF fuel [] et r2
    | .inr out => out
  | _, .readErr :: _, _, r => (r, false)
  | fuel + 1, .data none :: ot, errs, r =>
    match stderrStep errs r with
    | .inl (et, r2) => streamLoopF fuel ot et r2
    | .inr out => out
  | fuel + 1, .data (some s) :: ot, errs, r =>
    let p := r.try_send (.StdOut s)
    if p.2 then
      match stderrStep errs p.1 with
      | .inl (et, r2) => streamLoopF fuel ot et r2
      | .inr out => out
    else (p.1, true)

/-- The drain loop at its starting fuel. -/
def streamLoop (outs errs : List ReadRes) (r : BuildResponder) :
    BuildResponder × Bool :=
  streamLoopF (outs.length + errs.length + 1) outs errs r

/-- Responder `b` is responder `a` after zero or more chunk deliveries on
the same channel. -/
def ChunkExtends (a b : BuildResponder) : Prop :=
  b.sendOk = a.sendOk ∧
  ∃ cs, b.delivered = a.delivered ++ cs ∧ ∀ c ∈ cs, isChunkItem c = true

/-- `cargo_metadata::Package`, restricted to the parts the pipeline uses:
the package name, the `package.metadata` JSON value, and the result of
`serde_json::to_string(&package)` (a `Result`; `none` models a
serialization failure). -/
structure Package where
  name : String
  metadata : Json
  serialized : Option String

/-- `cargo_metadata::Metadata`, restricted to `root_package()`. -/
structure CargoMetadata where
  root_package : Option Package

/-- Splits a file name at its last dot: `some (stem, ext)` when a dot
exists, splitting at the rightmost one. -/
def lastDotSplit : List Char → Option (List Char × List Char)
  | [] => none
  | c :: rest =>
    match lastDotSplit rest with
    | some (pre, suf) => some (c :: pre, suf)
    | none => if c = '.' then some ([], rest) else none

/-- Rust `Path::extension` on a file name: the part after the last dot,
none when there is no dot or the only dot is the leading one (a hidden
file such as `.wasm` has no extension). -/
def pathExtension (name : List Char) : Option (List Char) :=
  match lastDotSplit name with
  | some ([], _) => none
  | some (_, suf) => some suf
  | none => none

/-- A directory entry of the designated output directory.  `name` is the
file name; `nameUtf8` records whether the OS file name is valid UTF-8
(`OsStr::to_str` succeeds), which decides the `unwrap_or_else` fallback of
src/build.rs lines 232-236. -/
structure DirEntry where
  name : List Char
  nameUtf8 : Bool
deriving DecidableEq

/-- `get_binary_filename` (src/build.rs lines 268-281): the first entry of
the output directory whose extension is `wasm`; the pipeline maps the
`none` case to `Error::CompilationFailed`. -/
def get_binary_filename (entries : List DirEntry) : Option DirEntry :=
  entries.find? (fun e => pathExtension e.name == some ("wasm".data))

/-- The `binary_filename_string` of src/build.rs lines 232-236: the file
name when it is valid UTF-8, otherwise the literal fallback. -/
def binary_filename_string (entry : DirEntry) : String :=
  if entry.nameUtf8 then ⟨entry.name⟩ else "program.wasm"

/-- Everything external that `ProgramBuilder::add_program` (src/build.rs
lines 150-266) interacts with, as one record: the cargo-metadata result,
the docker spawn and its two streams, the process exit, the output
directory listing, the artifact file read, and the sled insert outcome. -/
structure BuildEnv where
  metadataExec : Except String CargoMetadata
  spawnOk : Bool
  stdoutPresent : Bool
  stderrPresent : Bool
  stdoutReads : List ReadRes
  stderrReads : List ReadRes
  waitOk : Bool
  exitSuccess : Bool
  outputDir : Option (List DirEntry)
  artifactRead : Except String (List Nat)
  insertOk : Bool

/-- The outcome of one pipeline run: the store after the run, the
responder after the run, and the pipeline's `Result<(), Error>`. -/
structure BuildOutcome where
  store : Store
  responder : BuildResponder
  result : Except Error Unit

/-- The tail of the pipeline from the `get_binary_filename` call onward
(src/build.rs lines 230-265): locate the artifact, read it, hash
artifact bytes plus metadata encoding, insert into sled under the hash,
then send the `Success` event (a rejected send maps to `Error::Mpsc`). -/
def commitStage (env : BuildEnv) (db : Store) (r : BuildResponder)
    (pkg : Package) : BuildOutcome :=
  match env.outputDir with
  | none => ⟨db, r, .error (.IoError "read_dir")⟩
  | some entries =>
    match get_binary_filename entries with
    | none => ⟨db, r, .error (.CompilationFailed "Cannot find binary after compiling")⟩
    | some entry =>
      match env.artifactRead with
      | .error e => ⟨db, r, .error (.IoError e)⟩
      | .ok binary =>
        let hash := blakeTwo256 (binary ++ (extract_metadata pkg.metadata).to_bytes)
        match pkg.serialized with
        | none => ⟨db, r, .error (.Json "serialize root package metadata")⟩
        | some root_package_metadata_json =>
          if env.insertOk then
            let db2 := Store.insert db hash.val root_package_metadata_json
            let p := r.try_send
              (.Success hash binary (binary_filename_string entry))
            if p.2 then ⟨db2, p.1, .ok ()⟩ else ⟨db2, p.1, .error .Mpsc⟩
          else ⟨db, r, .error (.Db "insert")⟩

/-- The pipeline from the stream-drain loop onward (src/build.rs lines
189-229): loop result, `process.wait()`, exit-status check. -/
def afterSpawn (env : BuildEnv) (db : Store) (lp : BuildResponder × Bool)
    (pkg : Package) : BuildOutcome :=
  if lp.2 then
    if env.waitOk then
      if env.exitSuccess then commitStage env db lp.1 pkg
      else ⟨db, lp.1, .error (.CompilationFailed "Unknown")⟩
    else ⟨db, lp.1, .error (.IoError "wait")⟩
  else ⟨db, lp.1, .error (.IoError "read stream")⟩

/-- `ProgramBuilder::add_program` (src/build.rs lines 150-266). -/
def ProgramBuilder.add_program (env : BuildEnv) (db : Store)
    (r : BuildResponder) : BuildOutcome :=
  match env.metadataExec with
  | .error e => ⟨db, r, .error (.Metadata e)⟩
  | .ok metadata =>
    match metadata.root_package with
    | none => ⟨db, r, .error .MetadataMissingRootPackage⟩
    | some root_package_metadata =>
      if env.spawnOk then
        if env.stdoutPresent then
          if env.stderrPresent then
            afterSpawn env db
              (streamLoop env.stdoutReads env.stderrReads r)
              root_package_metadata
          else ⟨db, r, .error .NoStdErr⟩
        else ⟨db, r, .error .NoStdOut⟩
      else ⟨db, r, .error (.IoError "spawn docker")⟩

/-- Model of `std::process::Output` for a command run with
`.stderr(Stdio::inherit()).stdout(Stdio::inherit())` (src/build.rs lines
118-125): an inherited stream goes to the service's own terminal and is
not captured, so the `Output` buffers are empty whatever the child wrote.
`childStderrBytes` is what the child actually wrote to stderr. -/
structure CommandOutput where
  status_success : Bool
  stdout : List Nat
  stderr : List Nat

def commandOutputInherited (exitSuccess : Bool)
    (_childStderrBytes : List Nat) : CommandOutput :=
  { status_success := exitSuccess, stdout := [], stderr := [] }

/-- Externals of `ProgramBuilder::add_program_git` (src/build.rs lines
112-134): the temp-dir creation, the `git clone` exit status and what the
clone wrote to its (inherited) stderr, then the shared pipeline. -/
structure GitEnv where
  tempDirOk : Bool
  cloneExitSuccess : Bool
  cloneStderrBytes : List Nat
  build : BuildEnv

/-- `ProgramBuilder::add_program_git` (src/build.rs lines 112-134). -/
def ProgramBuilder.add_program_git (env : GitEnv) (db : Store)
    (r : BuildResponder) : BuildOutcome :=
  if env.tempDirOk then
    let output := commandOutputInherited env.cloneExitSuccess env.cloneStderrBytes
    if output.status_success then
      ProgramBuilder.add_program env.build db r
    else
      ⟨db, r, .error (.GitClone (fromUtf8Lossy output.stderr))⟩
  else ⟨db, r, .error (.IoError "tempdir")⟩

/-- Externals of `ProgramBuilder::add_program_tar` (src/build.rs lines
137-147): temp-dir creation and archive unpacking, then the shared
pipeline. -/
structure TarEnv where
  tempDirOk : Bool
  unpackOk : Bool
  build : BuildEnv

/-- `ProgramBuilder::add_program_tar` (src/build.rs lines 137-147). -/
def ProgramBuilder.add_program_tar (env : TarEnv) (db : Store)
    (r : BuildResponder) : BuildOutcome :=
  if env.tempDirOk then
    if env.unpackOk then ProgramBuilder.add_program env.build db r
    else ⟨db, r, .error (.IoError "unpack archive")⟩
  else ⟨db, r, .error (.IoError "tempdir")⟩

/-- `BuildRequestType` (src/build.rs lines 42-46), carrying the modelled
externals of the matching materialization path. -/
inductive BuildRequestType
  | git (env : GitEnv)
  | tar (env : TarEnv)

/-- A queued `BuildRequest` (src/build.rs lines 18-22): the request type
plus its responder channel's acceptance oracle (the channel itself is
created fresh per request by the submitting endpoint). -/
structure BuildRequest where
  request_type : BuildRequestType
  sendOk : Nat → Bool

/-- Dispatch of the worker's `match build_request.request_type` (src/build.rs
lines 87-104), without the error-event wrapper. -/
def runBuild (rt : BuildRequestType) (db : Store) (r : BuildResponder) :
    BuildOutcome :=
  match rt with
  | .git env => ProgramBuilder.add_program_git env db r
  | .tar env => ProgramBuilder.add_program_tar env db r

/-- One iteration of `handle_build_requests` (src/build.rs lines 83-106):
run the pipeline on a fresh responder; when it returns an error, forward
that error as the terminal event (`try_send_error`).  Returns the store
after the request and the items the channel accepted, in order. -/
def runRequest (req : BuildRequest) (db : Store) :
    Store × List ChannelItem :=
  let outcome := runBuild req.request_type db ⟨req.sendOk, 0, []⟩
  match outcome.result with
  | .ok _ => (outcome.store, outcome.responder.delivered)
  | .error e => (outcome.store, (outcome.responder.try_send_error e).delivered)

/-- The worker loop `handle_build_requests` (src/build.rs lines 83-106):
a single consumer takes requests in arrival order and runs each pipeline
to completion before receiving the next. -/
def handle_build_requests : List BuildRequest → Store →
    Store × List (List ChannelItem)
  | [], db => (db, [])
  | req :: rest, db =>
    ((handle_build_requests rest (runRequest req db).1).1,
     (runRequest req db).2 :: (handle_build_requests rest (runRequest req db).1).2)

/-- The bytes `src/build.rs` feeds the digest (lines 246-251): artifact
bytes followed by the metadata encoding. -/
def buildDigestInput (binary : List Nat) (m : EntropyProgramMetadata) :
    List Nat :=
  binary ++ m.to_bytes

/-- The bytes `src/main.rs` feeds the digest (lines 158-166): the artifact
bytes alone. -/
def mainDigestInput (contents : List Nat) : List Nat :=
  contents

/-- The failure kinds of the stages listed in claim C1 - every kind the
pipeline can produce other than `Mpsc`, which only the final `Success`
send (after Commit) produces. -/
def preCommitFailure : Error → Bool
  | .Mpsc => false
  | _ => true

/-- The commit the pipeline would perform for a given environment: the key
is the digest of artifact bytes plus metadata encoding, the value the
serialized root package. -/
def BuildEnv.commitData (env : BuildEnv) : Option (List Nat × String) :=
  match env.metadataExec with
  | .error _ => none
  | .ok md =>
    match md.root_package with
    | none => none
    | some pkg =>
      match env.artifactRead with
      | .error _ => none
      | .ok binary =>
        match pkg.serialized with
        | none => none
        | some j =>
          some ((blakeTwo256 (binary ++ (extract_metadata pkg.metadata).to_bytes)).val, j)

/-- The commit data of a request's environment. -/
def commitDataOf : BuildRequestType → Option (List Nat × String)
  | .git env => env.build.commitData
  | .tar env => env.build.commitData

/-- The commit data as `commitStage` sees it, the root package already in
hand. -/
def commitDataPkg (env : BuildEnv) (pkg : Package) :
    Option (List Nat × String) :=
  match env.artifactRead with
  | .error _ => none
  | .ok binary =>
    match pkg.serialized with
    | none => none
    | some j =>
      some ((blakeTwo256 (binary ++ (extract_metadata pkg.metadata).to_bytes)).val, j)

/-- The event-shape invariant of one pipeline run relative to its starting
responder: the responder has delivered some chunk events, and either the
run failed with a non-`Mpsc` error and delivered nothing else, or it
succeeded and delivered exactly one final `Success` event after the
chunks. -/
def EventsSpec (r : BuildResponder) (o : BuildOutcome) : Prop :=
  ∃ cs, (∀ c ∈ cs, isChunkItem c = true) ∧
    o.responder.sendOk = r.sendOk ∧
    ((∃ e, e ≠ Error.Mpsc ∧ o.result = .error e ∧
        o.responder.delivered = r.delivered ++ cs) ∨
     (∃ h b f, o.result = .ok () ∧
        o.responder.delivered = r.delivered ++ cs ++ [.ok (.Success h b f)]))

/-- A root package fixture: empty `package.metadata`, serializable. -/
def pkg0 : Package :=
  { name := "test-program", metadata := Json.null, serialized := some "pkgjson" }

def md0 : CargoMetadata := { root_package := some pkg0 }

/-- A fully successful environment: manifest reads fine, the tool spawns,
streams nothing, exits zero, leaves one artifact `a.wasm` with one byte. -/
def envOk : BuildEnv :=
  { metadataExec := .ok md0
    spawnOk := true
    stdoutPresent := true
    stderrPresent := true
    stdoutReads := []
    stderrReads := []
    waitOk := true
    exitSuccess := true
    outputDir := some [⟨"a.wasm".data, true⟩]
    artifactRead := .ok [1]
    insertOk := true }

/-- `envOk` but the cargo-metadata read fails (no descriptor file). -/
def envMetaErr : BuildEnv :=
  { envOk with metadataExec := .error "manifest path does not exist" }

def mdNoRoot : CargoMetadata := { root_package := none }

/-- `envOk` but the manifest has no root package. -/
def envNoRoot : BuildEnv := { envOk with metadataExec := .ok mdNoRoot }

/-- `envOk` but the output directory is empty: no artifact to locate. -/
def envNoArtifact : BuildEnv := { envOk with outputDir := some [] }

/-- `envOk` but the tool exits non-zero. -/
def envExitNonzero : BuildEnv := { envOk with exitSuccess := false }

/-- `envOk` but the artifact file is empty. -/
def envEmptyArtifact : BuildEnv := { envOk with artifactRead := .ok [] }

/-- `envOk` with one stdout chunk streamed during the build. -/
def envChunk : BuildEnv :=
  { envOk with stdoutReads := [.data (some "building")] }

/-- A responder whose channel accepts everything. -/
def r0 : BuildResponder := ⟨fun _ => true, 0, []⟩

/-- A successful tar request whose caller disconnected: every send on the
responder channel is rejected. -/
def reqDead : BuildRequest := ⟨.tar ⟨true, true, envOk⟩, fun _ => false⟩

/-- A successful tar request with a connected caller and one chunk. -/
def reqChunk : BuildRequest := ⟨.tar ⟨true, true, envChunk⟩, fun _ => true⟩

/-- A successful tar request with a connected caller. -/
def reqOk : BuildRequest := ⟨.tar ⟨true, true, envOk⟩, fun _ => true⟩

/-- A successful tar request whose artifact file is empty. -/
def reqEmpty : BuildRequest :=
  ⟨.tar ⟨true, true, envEmptyArtifact⟩, fun _ => true⟩

/-- A git environment whose clone fails after writing `fatal` to its own
(inherited) stderr. -/
def gitEnvFail : GitEnv :=
  { tempDirOk := true
    cloneExitSuccess := false
    cloneStderrBytes := [102, 97, 116, 97, 108]
    build := envOk }

/-- The error kind of a pipeline outcome, when it failed. -/
def resultErrorKind (o : BuildOutcome) : Option ErrorKind :=
  match o.result with
  | .error e => some e.kind
  | .ok _ => none

/-- A manifest declaring `version-number = 300`, not representable as u8. -/
def jVer300 : Json :=
  .obj [("entropy-program", .obj
    [("version-number", .num (.uint 300)),
     ("configuration-schema", .str "sch")])]

/-- Metadata with `configuration-schema = "ab"` and nothing else. -/
def m5a : EntropyProgramMetadata := { configuration_schema := some "ab" }

/-- Metadata with `configuration-schema = "a"`, `auxiliary-data-schema =
"b"` and nothing else. -/
def m5b : EntropyProgramMetadata :=
  { configuration_schema := some "a", auxiliary_data_schema := some "b" }

theorem blakeTwo256_val_length (input : List Nat) :
    (blakeTwo256 input).val.length = 32 := by
  simp [blakeTwo256]

example : (extract_metadata (.obj [("entropy-program",
    .obj [("version-number", .num (.uint 300))])])).version_number = none := by
  decide

example : (extract_metadata (.obj [("entropy-program",
    .obj [("version-number", .num (.uint 7)),
          ("configuration-schema", .str "sch")])])) =
    { configuration_schema := some "sch", version_number := some 7 } := by
  decide

example :
    (streamLoop [.data (some "a"), .data none] [.data (some "b")]
      ⟨fun _ => true, 0, []⟩).1.delivered =
    [.ok (.StdOut "a"), .ok (.StdErr "b")] := by
  decide

example :
    (streamLoop [.data (some "a"), .data (some "c")] []
      ⟨fun n => n == 0, 0, []⟩).1.delivered = [.ok (.StdOut "a")] := by
  decide

example :
    (streamLoop [.data (some "a")] [.readErr] ⟨fun _ => true, 0, []⟩).2 =
    false := by
  decide

theorem ChunkExtends.refl (a : BuildResponder) : ChunkExtends a a :=
  ⟨rfl, [], by simp, by simp⟩

theorem ChunkExtends.trans {a b c : BuildResponder}
    (h1 : ChunkExtends a b) (h2 : ChunkExtends b c) : ChunkExtends a c := by
  obtain ⟨hs1, cs1, hd1, hc1⟩ := h1
  obtain ⟨hs2, cs2, hd2, hc2⟩ := h2
  refine ⟨hs2.trans hs1, cs1 ++ cs2, ?_, ?_⟩
  · rw [hd2, hd1, List.append_assoc]
  · intro c hc
    rcases List.mem_append.mp hc with h | h
    · exact hc1 c h
    · exact hc2 c h

theorem try_send_chunkExtends (r : BuildResponder) (resp : BuildResponse)
    (h : isChunkItem (.ok resp) = true) :
    ChunkExtends r (r.try_send resp).1 := by
  unfold BuildResponder.try_send
  by_cases hs : r.sendOk r.sent
  · refine ⟨by simp [hs], [.ok resp], by simp [hs], ?_⟩
    intro c hc
    simp at hc
    subst hc
    exact h
  · exact ⟨by simp [hs], [], by simp [hs], by simp⟩

theorem stderrStep_chunkExtends (errs : List ReadRes) (r : BuildResponder) :
    (∀ et r2, stderrStep errs r = .inl (et, r2) → ChunkExtends r r2) ∧
    (∀ out, stderrStep errs r = .inr out → ChunkExtends r out.1) := by
  match errs with
  | [] =>
    constructor
    · intro et r2 h
      simp [stderrStep] at h
      exact h.2 ▸ ChunkExtends.refl r
    · intro out h
      simp [stderrStep] at h
  | .readErr :: et =>
    constructor
    · intro et2 r2 h
      simp [stderrStep] at h
    · intro out h
      simp [stderrStep] at h
      exact h ▸ ChunkExtends.refl r
  | .data none :: et =>
    constructor
    · intro et2 r2 h
      simp [stderrStep] at h
      exact h.2 ▸ ChunkExtends.refl r
    · intro out h
      simp [stderrStep] at h
  | .data (some s) :: et =>
    have hts := try_send_chunkExtends r (.StdErr s) rfl
    constructor
    · intro et2 r2 h
      simp only [stderrStep] at h
      split at h
      · simp at h
        exact h.2 ▸ hts
      · simp at h
    · intro out h
      simp only [stderrStep] at h
      split at h
      · simp at h
      · simp at h
        exact h ▸ hts

theorem streamLoopF_chunkExtends :
    ∀ (f : Nat) (outs errs : List ReadRes) (r : BuildResponder),
      ChunkExtends r (streamLoopF f outs errs r).1 := by
  intro f
  induction f with
  | zero =>
    intro outs errs r
    cases outs <;> cases errs <;> simpa [streamLoopF] using ChunkExtends.refl r
  | succ f ih =>
    intro outs errs r
    match outs with
    | [] =>
      match errs with
      | [] => simpa [streamLoopF] using ChunkExtends.refl r
      | e :: et =>
        rcases hstep : stderrStep (e :: et) r with ⟨et2, r2⟩ | out
        · have h2 := (stderrStep_chunkExtends (e :: et) r).1 et2 r2 hstep
          simpa [streamLoopF, hstep] using h2.trans (ih [] et2 r2)
        · have h2 := (stderrStep_chunkExtends (e :: et) r).2 out hstep
          simpa [streamLoopF, hstep] using h2
    | .readErr :: ot =>
      simpa [streamLoopF] using ChunkExtends.refl r
    | .data none :: ot =>
      rcases hstep : stderrStep errs r with ⟨et2, r2⟩ | out
      · have h2 := (stderrStep_chunkExtends errs r).1 et2 r2 hstep
        simpa [streamLoopF, hstep] using h2.trans (ih ot et2 r2)
      · have h2 := (stderrStep_chunkExtends errs r).2 out hstep
        simpa [streamLoopF, hstep] using h2
    | .data (some s) :: ot =>
      have hts := try_send_chunkExtends r (.StdOut s) rfl
      by_cases hp : (r.try_send (.StdOut s)).2
      · rcases hstep : stderrStep errs (r.try_send (.StdOut s)).1 with ⟨et2, r2⟩ | out
        · have h2 := (stderrStep_chunkExtends errs (r.try_send (.StdOut s)).1).1 et2 r2 hstep
          simpa [streamLoopF, hp, hstep] using (hts.trans h2).trans (ih ot et2 r2)
        · have h2 := (stderrStep_chunkExtends errs (r.try_send (.StdOut s)).1).2 out hstep
          simpa [streamLoopF, hp, hstep] using hts.trans h2
      · simpa [streamLoopF, hp] using hts

theorem streamLoop_chunkExtends (outs errs : List ReadRes)
    (r : BuildResponder) : ChunkExtends r (streamLoop outs errs r).1 :=
  streamLoopF_chunkExtends _ outs errs r

theorem stderrStep_nil_inl {r : BuildResponder} {et2 : List ReadRes}
    {r2 : BuildResponder} (h : stderrStep [] r = .inl (et2, r2)) :
    et2 = [] ∧ r2 = r := by
  simp [stderrStep] at h
  exact ⟨h.1, h.2.symm⟩

theorem stderrStep_cons_inl {e : ReadRes} {et : List ReadRes}
    {r : BuildResponder} {et2 : List ReadRes} {r2 : BuildResponder}
    (h : stderrStep (e :: et) r = .inl (et2, r2)) : et2 = et := by
  match e with
  | .readErr => simp [stderrStep] at h
  | .data none =>
    simp [stderrStep] at h
    exact h.1.symm
  | .data (some s) =>
    simp only [stderrStep] at h
    split at h
    · simp at h
      exact h.1.symm
    · simp at h

theorem stderrStep_inl_length {errs : List ReadRes} {r : BuildResponder}
    {et2 : List ReadRes} {r2 : BuildResponder}
    (h : stderrStep errs r = .inl (et2, r2)) : et2.length ≤ errs.length := by
  match errs with
  | [] => simp [(stderrStep_nil_inl h).1]
  | e :: et => simp [stderrStep_cons_inl h]

/-- The fuel of `streamLoopF` is an artifact of the embedding: any fuel of
at least the total stream length (in particular the `length + 1` that
`streamLoop` uses) produces the same result, so the `0`-fuel branch is
never taken from `streamLoop`. -/
theorem streamLoopF_fuel_independent :
    ∀ (f g : Nat) (outs errs : List ReadRes) (r : BuildResponder),
      outs.length + errs.length ≤ f → outs.length + errs.length ≤ g →
      streamLoopF f outs errs r = streamLoopF g outs errs r := by
  intro f
  induction f with
  | zero =>
    intro g outs errs r hf hg
    match outs, errs with
    | [], [] => cases g <;> simp [streamLoopF]
    | [], e :: et => simp at hf
    | o :: ot, errs => simp at hf
  | succ f ih =>
    intro g outs errs r hf hg
    match outs, errs with
    | [], [] => cases g <;> simp [streamLoopF]
    | [], e :: et =>
      obtain ⟨g', rfl⟩ : ∃ g', g = g' + 1 := by
        cases g with
        | zero => simp at hg
        | succ g' => exact ⟨g', rfl⟩
      rcases hstep : stderrStep (e :: et) r with ⟨et2, r2⟩ | out
      · obtain rfl := stderrStep_cons_inl hstep
        simp only [streamLoopF, hstep]
        refine ih g' [] et2 r2 ?_ ?_
        · simp at hf ⊢; omega
        · simp at hg ⊢; omega
      · simp [streamLoopF, hstep]
    | .readErr :: ot, errs =>
      obtain ⟨g', rfl⟩ : ∃ g', g = g' + 1 := by
        cases g with
        | zero => simp at hg
        | succ g' => exact ⟨g', rfl⟩
      simp [streamLoopF]
    | .data none :: ot, errs =>
      obtain ⟨g', rfl⟩ : ∃ g', g = g' + 1 := by
        cases g with
        | zero => simp at hg
        | succ g' => exact ⟨g', rfl⟩
      rcases hstep : stderrStep errs r with ⟨et2, r2⟩ | out
      · have hlen := stderrStep_inl_length hstep
        simp only [streamLoopF, hstep]
        refine ih g' ot et2 r2 ?_ ?_
        · simp at hf ⊢; omega
        · simp at hg ⊢; omega
      · simp [streamLoopF, hstep]
    | .data (some s) :: ot, errs =>
      obtain ⟨g', rfl⟩ : ∃ g', g = g' + 1 := by
        cases g with
        | zero => simp at hg
        | succ g' => exact ⟨g', rfl⟩
      by_cases hp : (r.try_send (.StdOut s)).2
      · rcases hstep : stderrStep errs (r.try_send (.StdOut s)).1 with
          ⟨et2, r2⟩ | out
        · have hlen := stderrStep_inl_length hstep
          simp only [streamLoopF, hp, if_true, hstep]
          refine ih g' ot et2 r2 ?_ ?_
          · simp at hf ⊢; omega
          · simp at hg ⊢; omega
        · simp [streamLoopF, hp, hstep]
      · simp [streamLoopF, hp]

example : pathExtension ("a.wasm".data) = some ("wasm".data) := by decide

example : pathExtension (".wasm".data) = none := by decide

example : pathExtension ("awasm".data) = none := by decide

example : pathExtension ("a.b.wasm".data) = some ("wasm".data) := by decide

theorem try_send_snd (r : BuildResponder) (resp : BuildResponse) :
    (r.try_send resp).2 = r.sendOk r.sent := by
  unfold BuildResponder.try_send
  by_cases h : r.sendOk r.sent <;> simp [h]

theorem try_send_delivered_of_accepted (r : BuildResponder)
    (resp : BuildResponse) (h : r.sendOk r.sent = true) :
    (r.try_send resp).1.delivered = r.delivered ++ [.ok resp] := by
  unfold BuildResponder.try_send
  simp [h]

theorem try_send_delivered_of_rejected (r : BuildResponder)
    (resp : BuildResponse) (h : r.sendOk r.sent = false) :
    (r.try_send resp).1.delivered = r.delivered := by
  unfold BuildResponder.try_send
  simp [h]

theorem try_send_error_delivered_of_accepted (r : BuildResponder)
    (e : Error) (h : r.sendOk r.sent = true) :
    (r.try_send_error e).delivered = r.delivered ++ [.err e] := by
  unfold BuildResponder.try_send_error
  simp [h]

theorem commitData_eq_pkg {env : BuildEnv} {md : CargoMetadata}
    {pkg : Package} (hm : env.metadataExec = .ok md)
    (hr : md.root_package = some pkg) :
    env.commitData = commitDataPkg env pkg := by
  simp [BuildEnv.commitData, commitDataPkg, hm, hr]

theorem commitStage_store_spec (env : BuildEnv) (db : Store)
    (r : BuildResponder) (pkg : Package) :
    (∀ e, (commitStage env db r pkg).result = .error e →
      preCommitFailure e = true → (commitStage env db r pkg).store = db) ∧
    ((commitStage env db r pkg).store = db ∨
      ∃ k v, commitDataPkg env pkg = some (k, v) ∧
        (commitStage env db r pkg).store = Store.insert db k v) := by
  rcases ho : env.outputDir with _ | entries
  · exact ⟨fun _ _ _ => by simp [commitStage, ho], Or.inl (by simp [commitStage, ho])⟩
  rcases hg : get_binary_filename entries with _ | entry
  · exact ⟨fun _ _ _ => by simp [commitStage, ho, hg], Or.inl (by simp [commitStage, ho, hg])⟩
  rcases ha : env.artifactRead with e | binary
  · exact ⟨fun _ _ _ => by simp [commitStage, ho, hg, ha], Or.inl (by simp [commitStage, ho, hg, ha])⟩
  rcases hs : pkg.serialized with _ | j
  · exact ⟨fun _ _ _ => by simp [commitStage, ho, hg, ha, hs], Or.inl (by simp [commitStage, ho, hg, ha, hs])⟩
  cases hi : env.insertOk with
  | false =>
    exact ⟨fun _ _ _ => by simp [commitStage, ho, hg, ha, hs, hi],
      Or.inl (by simp [commitStage, ho, hg, ha, hs, hi])⟩
  | true =>
    cases hp : (r.try_send (.Success
        (blakeTwo256 (binary ++ (extract_metadata pkg.metadata).to_bytes))
        binary (binary_filename_string entry))).2 with
    | true =>
      constructor
      · intro e he hpc
        simp [commitStage, ho, hg, ha, hs, hi, hp] at he
      · refine Or.inr ⟨(blakeTwo256 (binary ++
          (extract_metadata pkg.metadata).to_bytes)).val, j, ?_, ?_⟩
        · simp [commitDataPkg, ha, hs]
        · simp [commitStage, ho, hg, ha, hs, hi, hp]
    | false =>
      constructor
      · intro e he hpc
        simp [commitStage, ho, hg, ha, hs, hi, hp] at he
        subst he
        simp [preCommitFailure] at hpc
      · refine Or.inr ⟨(blakeTwo256 (binary ++
          (extract_metadata pkg.metadata).to_bytes)).val, j, ?_, ?_⟩
        · simp [commitDataPkg, ha, hs]
        · simp [commitStage, ho, hg, ha, hs, hi, hp]

theorem afterSpawn_store_spec (env : BuildEnv) (db : Store)
    (lp : BuildResponder × Bool) (pkg : Package) :
    (∀ e, (afterSpawn env db lp pkg).result = .error e →
      preCommitFailure e = true → (afterSpawn env db lp pkg).store = db) ∧
    ((afterSpawn env db lp pkg).store = db ∨
      ∃ k v, commitDataPkg env pkg = some (k, v) ∧
        (afterSpawn env db lp pkg).store = Store.insert db k v) := by
  cases hl : lp.2 with
  | false =>
    exact ⟨fun _ _ _ => by simp [afterSpawn, hl], Or.inl (by simp [afterSpawn, hl])⟩
  | true =>
    cases hw : env.waitOk with
    | false =>
      exact ⟨fun _ _ _ => by simp [afterSpawn, hl, hw], Or.inl (by simp [afterSpawn, hl, hw])⟩
    | true =>
      cases hx : env.exitSuccess with
      | false =>
        exact ⟨fun _ _ _ => by simp [afterSpawn, hl, hw, hx],
          Or.inl (by simp [afterSpawn, hl, hw, hx])⟩
      | true =>
        have hcs := commitStage_store_spec env db lp.1 pkg
        constructor
        · intro e he hpc
          have : (commitStage env db lp.1 pkg).result = .error e := by
            simpa [afterSpawn, hl, hw, hx] using he
          have := hcs.1 e this hpc
          simpa [afterSpawn, hl, hw, hx] using this
        · rcases hcs.2 with h | ⟨k, v, hk, hst⟩
          · exact Or.inl (by simpa [afterSpawn, hl, hw, hx] using h)
          · exact Or.inr ⟨k, v, hk, by simpa [afterSpawn, hl, hw, hx] using hst⟩

theorem add_program_store_spec (env : BuildEnv) (db : Store)
    (r : BuildResponder) :
    (∀ e, (ProgramBuilder.add_program env db r).result = .error e →
      preCommitFailure e = true →
      (ProgramBuilder.add_program env db r).store = db) ∧
    ((ProgramBuilder.add_program env db r).store = db ∨
      ∃ k v, env.commitData = some (k, v) ∧
        (ProgramBuilder.add_program env db r).store = Store.insert db k v) := by
  rcases hm : env.metadataExec with e | md
  · exact ⟨fun _ _ _ => by simp [ProgramBuilder.add_program, hm],
      Or.inl (by simp [ProgramBuilder.add_program, hm])⟩
  rcases hr : md.root_package with _ | pkg
  · exact ⟨fun _ _ _ => by simp [ProgramBuilder.add_program, hm, hr],
      Or.inl (by simp [ProgramBuilder.add_program, hm, hr])⟩
  cases hsp : env.spawnOk with
  | false =>
    exact ⟨fun _ _ _ => by simp [ProgramBuilder.add_program, hm, hr, hsp],
      Or.inl (by simp [ProgramBuilder.add_program, hm, hr, hsp])⟩
  | true =>
    cases hso : env.stdoutPresent with
    | false =>
      exact ⟨fun _ _ _ => by simp [ProgramBuilder.add_program, hm, hr, hsp, hso],
        Or.inl (by simp [ProgramBuilder.add_program, hm, hr, hsp, hso])⟩
    | true =>
      cases hse : env.stderrPresent with
      | false =>
        exact ⟨fun _ _ _ => by simp [ProgramBuilder.add_program, hm, hr, hsp, hso, hse],
          Or.inl (by simp [ProgramBuilder.add_program, hm, hr, hsp, hso, hse])⟩
      | true =>
        have has := afterSpawn_store_spec env db
          (streamLoop env.stdoutReads env.stderrReads r) pkg
        rw [commitData_eq_pkg hm hr]
        constructor
        · intro e he hpc
          have : (afterSpawn env db
              (streamLoop env.stdoutReads env.stderrReads r) pkg).result = .error e := by
            simpa [ProgramBuilder.add_program, hm, hr, hsp, hso, hse] using he
          have := has.1 e this hpc
          simpa [ProgramBuilder.add_program, hm, hr, hsp, hso, hse] using this
        · rcases has.2 with h | ⟨k, v, hk, hst⟩
          · exact Or.inl (by simpa [ProgramBuilder.add_program, hm, hr, hsp, hso, hse] using h)
          · exact Or.inr ⟨k, v, hk,
              by simpa [ProgramBuilder.add_program, hm, hr, hsp, hso, hse] using hst⟩

theorem runBuild_store_spec (rt : BuildRequestType) (db : Store)
    (r : BuildResponder) :
    (∀ e, (runBuild rt db r).result = .error e →
      preCommitFailure e = true → (runBuild rt db r).store = db) ∧
    ((runBuild rt db r).store = db ∨
      ∃ k v, commitDataOf rt = some (k, v) ∧
        (runBuild rt db r).store = Store.insert db k v) := by
  match rt with
  | .git env =>
    cases ht : env.tempDirOk with
    | false =>
      exact ⟨fun _ _ _ => by simp [runBuild, ProgramBuilder.add_program_git, ht],
        Or.inl (by simp [runBuild, ProgramBuilder.add_program_git, ht])⟩
    | true =>
      cases hc : env.cloneExitSuccess with
      | false =>
        exact ⟨fun _ _ _ => by
            simp [runBuild, ProgramBuilder.add_program_git, ht, hc, commandOutputInherited],
          Or.inl (by
            simp [runBuild, ProgramBuilder.add_program_git, ht, hc, commandOutputInherited])⟩
      | true =>
        have h := add_program_store_spec env.build db r
        constructor
        · intro e he hpc
          have : (ProgramBuilder.add_program env.build db r).result = .error e := by
            simpa [runBuild, ProgramBuilder.add_program_git, ht, hc,
              commandOutputInherited] using he
          have := h.1 e this hpc
          simpa [runBuild, ProgramBuilder.add_program_git, ht, hc,
            commandOutputInherited] using this
        · rcases h.2 with h2 | ⟨k, v, hk, hst⟩
          · exact Or.inl (by
              simpa [runBuild, ProgramBuilder.add_program_git, ht, hc,
                commandOutputInherited] using h2)
          · exact Or.inr ⟨k, v, hk, by
              simpa [runBuild, ProgramBuilder.add_program_git, ht, hc,
                commandOutputInherited, commitDataOf] using hst⟩
  | .tar env =>
    cases ht : env.tempDirOk with
    | false =>
      exact ⟨fun _ _ _ => by simp [runBuild, ProgramBuilder.add_program_tar, ht],
        Or.inl (by simp [runBuild, ProgramBuilder.add_program_tar, ht])⟩
    | true =>
      cases hu : env.unpackOk with
      | false =>
        exact ⟨fun _ _ _ => by simp [runBuild, ProgramBuilder.add_program_tar, ht, hu],
          Or.inl (by simp [runBuild, ProgramBuilder.add_program_tar, ht, hu])⟩
      | true =>
        have h := add_program_store_spec env.build db r
        constructor
        · intro e he hpc
          have : (ProgramBuilder.add_program env.build db r).result = .error e := by
            simpa [runBuild, ProgramBuilder.add_program_tar, ht, hu] using he
          have := h.1 e this hpc
          simpa [runBuild, ProgramBuilder.add_program_tar, ht, hu] using this
        · rcases h.2 with h2 | ⟨k, v, hk, hst⟩
          · exact Or.inl (by
              simpa [runBuild, ProgramBuilder.add_program_tar, ht, hu] using h2)
          · exact Or.inr ⟨k, v, hk, by
              simpa [runBuild, ProgramBuilder.add_program_tar, ht, hu, commitDataOf] using hst⟩

theorem EventsSpec.ofError (r : BuildResponder) (db : Store) (e : Error)
    (he : e ≠ Error.Mpsc) : EventsSpec r ⟨db, r, .error e⟩ :=
  ⟨[], by simp, rfl, Or.inl ⟨e, he, rfl, by simp⟩⟩

theorem EventsSpec.comp {r r1 : BuildResponder} {o : BuildOutcome}
    (hce : ChunkExtends r r1) (h : EventsSpec r1 o) : EventsSpec r o := by
  obtain ⟨hsend0, cs0, hdel0, hchunk0⟩ := hce
  obtain ⟨cs1, hchunk1, hsend1, hcase⟩ := h
  refine ⟨cs0 ++ cs1, ?_, hsend1.trans hsend0, ?_⟩
  · intro c hc
    rcases List.mem_append.mp hc with h | h
    · exact hchunk0 c h
    · exact hchunk1 c h
  · rcases hcase with ⟨e, he, hres, hdel⟩ | ⟨h, b, f, hres, hdel⟩
    · exact Or.inl ⟨e, he, hres, by rw [hdel, hdel0, List.append_assoc]⟩
    · exact Or.inr ⟨h, b, f, hres, by rw [hdel, hdel0]; simp [List.append_assoc]⟩

theorem commitStage_events_spec (env : BuildEnv) (db : Store)
    (r : BuildResponder) (pkg : Package)
    (hall : ∀ n, r.sendOk n = true) :
    EventsSpec r (commitStage env db r pkg) := by
  rcases ho : env.outputDir with _ | entries
  · simpa [commitStage, ho] using EventsSpec.ofError r db (.IoError "read_dir") (by simp)
  rcases hg : get_binary_filename entries with _ | entry
  · simpa [commitStage, ho, hg] using
      EventsSpec.ofError r db (.CompilationFailed "Cannot find binary after compiling") (by simp)
  rcases ha : env.artifactRead with e | binary
  · simpa [commitStage, ho, hg, ha] using
      EventsSpec.ofError r db (.IoError e) (by simp)
  rcases hs : pkg.serialized with _ | j
  · simpa [commitStage, ho, hg, ha, hs] using
      EventsSpec.ofError r db (.Json "serialize root package metadata") (by simp)
  cases hi : env.insertOk with
  | false =>
    simpa [commitStage, ho, hg, ha, hs, hi] using
      EventsSpec.ofError r db (.Db "insert") (by simp)
  | true =>
    have hacc : r.sendOk r.sent = true := hall r.sent
    have hp : (r.try_send (.Success
        (blakeTwo256 (binary ++ (extract_metadata pkg.metadata).to_bytes))
        binary (binary_filename_string entry))).2 = true := by
      rw [try_send_snd]; exact hacc
    refine ⟨[], by simp, ?_, Or.inr
      ⟨blakeTwo256 (binary ++ (extract_metadata pkg.metadata).to_bytes),
       binary, binary_filename_string entry, ?_, ?_⟩⟩
    · simp [commitStage, ho, hg, ha, hs, hi, hp, BuildResponder.try_send, hacc]
    · simp [commitStage, ho, hg, ha, hs, hi, hp]
    · simp [commitStage, ho, hg, ha, hs, hi, hp,
        try_send_delivered_of_accepted r _ hacc]

theorem afterSpawn_events_spec (env : BuildEnv) (db : Store)
    (lp : BuildResponder × Bool) (pkg : Package)
    (hall : ∀ n, lp.1.sendOk n = true) :
    EventsSpec lp.1 (afterSpawn env db lp pkg) := by
  cases hl : lp.2 with
  | false =>
    simpa [afterSpawn, hl] using
      EventsSpec.ofError lp.1 db (.IoError "read stream") (by simp)
  | true =>
    cases hw : env.waitOk with
    | false =>
      simpa [afterSpawn, hl, hw] using
        EventsSpec.ofError lp.1 db (.IoError "wait") (by simp)
    | true =>
      cases hx : env.exitSuccess with
      | false =>
        simpa [afterSpawn, hl, hw, hx] using
          EventsSpec.ofError lp.1 db (.CompilationFailed "Unknown") (by simp)
      | true =>
        simpa [afterSpawn, hl, hw, hx] using
          commitStage_events_spec env db lp.1 pkg hall

theorem add_program_events_spec (env : BuildEnv) (db : Store)
    (r : BuildResponder) (hall : ∀ n, r.sendOk n = true) :
    EventsSpec r (ProgramBuilder.add_program env db r) := by
  rcases hm : env.metadataExec with e | md
  · simpa [ProgramBuilder.add_program, hm] using
      EventsSpec.ofError r db (.Metadata e) (by simp)
  rcases hr : md.root_package with _ | pkg
  · simpa [ProgramBuilder.add_program, hm, hr] using
      EventsSpec.ofError r db Error.MetadataMissingRootPackage (by simp)
  cases hsp : env.spawnOk with
  | false =>
    simpa [ProgramBuilder.add_program, hm, hr, hsp] using
      EventsSpec.ofError r db (.IoError "spawn docker") (by simp)
  | true =>
    cases hso : env.stdoutPresent with
    | false =>
      simpa [ProgramBuilder.add_program, hm, hr, hsp, hso] using
        EventsSpec.ofError r db Error.NoStdOut (by simp)
    | true =>
      cases hse : env.stderrPresent with
      | false =>
        simpa [ProgramBuilder.add_program, hm, hr, hsp, hso, hse] using
          EventsSpec.ofError r db Error.NoStdErr (by simp)
      | true =>
        have hce := streamLoop_chunkExtends env.stdoutReads env.stderrReads r
        have hall1 : ∀ n,
            (streamLoop env.stdoutReads env.stderrReads r).1.sendOk n = true := by
          intro n
          rw [hce.1]
          exact hall n
        have hsub := afterSpawn_events_spec env db
          (streamLoop env.stdoutReads env.stderrReads r) pkg hall1
        have := EventsSpec.comp hce hsub
        simpa [ProgramBuilder.add_program, hm, hr, hsp, hso, hse] using this

theorem runBuild_events_spec (rt : BuildRequestType) (db : Store)
    (r : BuildResponder) (hall : ∀ n, r.sendOk n = true) :
    EventsSpec r (runBuild rt db r) := by
  match rt with
  | .git env =>
    cases ht : env.tempDirOk with
    | false =>
      simpa [runBuild, ProgramBuilder.add_program_git, ht] using
        EventsSpec.ofError r db (.IoError "tempdir") (by simp)
    | true =>
      cases hc : env.cloneExitSuccess with
      | false =>
        simpa [runBuild, ProgramBuilder.add_program_git, ht, hc,
          commandOutputInherited] using
          EventsSpec.ofError r db (.GitClone (fromUtf8Lossy [])) (by simp)
      | true =>
        simpa [runBuild, ProgramBuilder.add_program_git, ht, hc,
          commandOutputInherited] using add_program_events_spec env.build db r hall
  | .tar env =>
    cases ht : env.tempDirOk with
    | false =>
      simpa [runBuild, ProgramBuilder.add_program_tar, ht] using
        EventsSpec.ofError r db (.IoError "tempdir") (by simp)
    | true =>
      cases hu : env.unpackOk with
      | false =>
        simpa [runBuild, ProgramBuilder.add_program_tar, ht, hu] using
          EventsSpec.ofError r db (.IoError "unpack archive") (by simp)
      | true =>
        simpa [runBuild, ProgramBuilder.add_program_tar, ht, hu] using
          add_program_events_spec env.build db r hall

theorem lastDotSplit_eq : ∀ {name pre suf : List Char},
    lastDotSplit name = some (pre, suf) → name = pre ++ '.' :: suf := by
  intro name
  induction name with
  | nil => intro pre suf h; simp [lastDotSplit] at h
  | cons c rest ih =>
    intro pre suf h
    rcases hr : lastDotSplit rest with _ | ⟨p, s⟩
    · rw [lastDotSplit, hr] at h
      by_cases hc : c = '.'
      · simp [hc] at h
        obtain ⟨rfl, rfl⟩ := h
        simp [hc]
      · simp [hc] at h
    · rw [lastDotSplit, hr] at h
      simp at h
      obtain ⟨rfl, rfl⟩ := h
      simpa using ih hr

theorem pathExtension_wasm_suffix {name : List Char}
    (h : pathExtension name = some ("wasm".data)) :
    ".wasm".data <:+ name := by
  rcases hls : lastDotSplit name with _ | ⟨pre, suf⟩
  · simp [pathExtension, hls] at h
  · match pre with
    | [] => simp [pathExtension, hls] at h
    | p :: ps =>
      have hsuf : suf = "wasm".data := by
        simpa [pathExtension, hls] using h
      subst hsuf
      refine ⟨p :: ps, ?_⟩
      rw [lastDotSplit_eq hls]

theorem get_binary_filename_ext {entries : List DirEntry} {entry : DirEntry}
    (h : get_binary_filename entries = some entry) :
    pathExtension entry.name = some ("wasm".data) := by
  have := List.find?_some h
  simpa using this

theorem binary_filename_string_wasm {entry : DirEntry}
    (h : pathExtension entry.name = some ("wasm".data)) :
    ".wasm".data <:+ (binary_filename_string entry).data := by
  unfold binary_filename_string
  cases hu : entry.nameUtf8 with
  | true =>
    rw [if_pos rfl]
    exact pathExtension_wasm_suffix h
  | false =>
    rw [if_neg (by simp)]
    exact ⟨"program".data, by decide⟩

theorem mem_of_append_chunks (x : ChannelItem) (hx : isChunkItem x = false)
    {l cs : List ChannelItem} (hcs : ∀ c ∈ cs, isChunkItem c = true)
    (hm : x ∈ l ++ cs) : x ∈ l := by
  rcases List.mem_append.mp hm with h | h
  · exact h
  · have := hcs x h
    rw [hx] at this
    cases this

theorem commitStage_success_mem (env : BuildEnv) (db : Store)
    (r : BuildResponder) (pkg : Package) (h : H256) (b : List Nat)
    (f : String)
    (hm : ChannelItem.ok (.Success h b f) ∈
      (commitStage env db r pkg).responder.delivered) :
    ChannelItem.ok (.Success h b f) ∈ r.delivered ∨
      (h.val.length = 32 ∧ ".wasm".data <:+ f.data) := by
  rcases ho : env.outputDir with _ | entries
  · rw [commitStage, ho] at hm; exact Or.inl hm
  rcases hg : get_binary_filename entries with _ | entry
  · rw [commitStage, ho] at hm; simp only [hg] at hm; exact Or.inl hm
  rcases ha : env.artifactRead with e | binary
  · rw [commitStage, ho] at hm; simp only [hg, ha] at hm; exact Or.inl hm
  rcases hs : pkg.serialized with _ | j
  · rw [commitStage, ho] at hm; simp only [hg, ha, hs] at hm; exact Or.inl hm
  cases hi : env.insertOk with
  | false =>
    rw [commitStage, ho] at hm
    simp only [hg, ha, hs, hi, if_false, Bool.false_eq_true] at hm
    exact Or.inl hm
  | true =>
    rw [commitStage, ho] at hm
    simp only [hg, ha, hs, hi, if_true] at hm
    cases hacc : r.sendOk r.sent with
    | false =>
      have hp : (r.try_send (.Success
          (blakeTwo256 (binary ++ (extract_metadata pkg.metadata).to_bytes))
          binary (binary_filename_string entry))).2 = false := by
        rw [try_send_snd]; exact hacc
      rw [hp] at hm
      simp only [Bool.false_eq_true, if_false] at hm
      rw [try_send_delivered_of_rejected r _ hacc] at hm
      exact Or.inl hm
    | true =>
      have hp : (r.try_send (.Success
          (blakeTwo256 (binary ++ (extract_metadata pkg.metadata).to_bytes))
          binary (binary_filename_string entry))).2 = true := by
        rw [try_send_snd]; exact hacc
      rw [hp] at hm
      simp only [if_true] at hm
      rw [try_send_delivered_of_accepted r _ hacc] at hm
      rcases List.mem_append.mp hm with h2 | h2
      · exact Or.inl h2
      · simp at h2
        obtain ⟨hh, hb, hf⟩ := h2
        refine Or.inr ⟨?_, ?_⟩
        · rw [hh]; exact blakeTwo256_val_length _
        · rw [hf]
          exact binary_filename_string_wasm (get_binary_filename_ext hg)

theorem afterSpawn_success_mem (env : BuildEnv) (db : Store)
    (lp : BuildResponder × Bool) (pkg : Package) (h : H256) (b : List Nat)
    (f : String)
    (hm : ChannelItem.ok (.Success h b f) ∈
      (afterSpawn env db lp pkg).responder.delivered) :
    ChannelItem.ok (.Success h b f) ∈ lp.1.delivered ∨
      (h.val.length = 32 ∧ ".wasm".data <:+ f.data) := by
  cases hl : lp.2 with
  | false => rw [afterSpawn, hl] at hm; exact Or.inl hm
  | true =>
    cases hw : env.waitOk with
    | false =>
      rw [afterSpawn, hl] at hm
      simp only [hw, Bool.false_eq_true, if_false, if_true] at hm
      exact Or.inl hm
    | true =>
      cases hx : env.exitSuccess with
      | false =>
        rw [afterSpawn, hl] at hm
        simp only [hw, hx, Bool.false_eq_true, if_false, if_true] at hm
        exact Or.inl hm
      | true =>
        rw [afterSpawn, hl] at hm
        simp only [hw, hx, if_true] at hm
        exact commitStage_success_mem env db lp.1 pkg h b f hm

theorem add_program_success_mem (env : BuildEnv) (db : Store)
    (r : BuildResponder) (h : H256) (b : List Nat) (f : String)
    (hm : ChannelItem.ok (.Success h b f) ∈
      (ProgramBuilder.add_program env db r).responder.delivered) :
    ChannelItem.ok (.Success h b f) ∈ r.delivered ∨
      (h.val.length = 32 ∧ ".wasm".data <:+ f.data) := by
  rcases hmx : env.metadataExec with e | md
  · rw [ProgramBuilder.add_program, hmx] at hm; exact Or.inl hm
  rcases hr : md.root_package with _ | pkg
  · rw [ProgramBuilder.add_program, hmx] at hm
    simp only [hr] at hm
    exact Or.inl hm
  cases hsp : env.spawnOk with
  | false =>
    rw [ProgramBuilder.add_program, hmx] at hm
    simp only [hr, hsp, Bool.false_eq_true, if_false] at hm
    exact Or.inl hm
  | true =>
    cases hso : env.stdoutPresent with
    | false =>
      rw [ProgramBuilder.add_program, hmx] at hm
      simp only [hr, hsp, hso, Bool.false_eq_true, if_false, if_true] at hm
      exact Or.inl hm
    | true =>
      cases hse : env.stderrPresent with
      | false =>
        rw [ProgramBuilder.add_program, hmx] at hm
        simp only [hr, hsp, hso, hse, Bool.false_eq_true, if_false, if_true] at hm
        exact Or.inl hm
      | true =>
        rw [ProgramBuilder.add_program, hmx] at hm
        simp only [hr, hsp, hso, hse, if_true] at hm
        rcases afterSpawn_success_mem env db
            (streamLoop env.stdoutReads env.stderrReads r) pkg h b f hm with
          h2 | h2
        · obtain ⟨hsend, cs, hdel, hchunks⟩ :=
            streamLoop_chunkExtends env.stdoutReads env.stderrReads r
          rw [hdel] at h2
          exact Or.inl (mem_of_append_chunks
            (ChannelItem.ok (.Success h b f)) rfl hchunks h2)
        · exact Or.inr h2

theorem runBuild_success_mem (rt : BuildRequestType) (db : Store)
    (r : BuildResponder) (h : H256) (b : List Nat) (f : String)
    (hm : ChannelItem.ok (.Success h b f) ∈
      (runBuild rt db r).responder.delivered) :
    ChannelItem.ok (.Success h b f) ∈ r.delivered ∨
      (h.val.length = 32 ∧ ".wasm".data <:+ f.data) := by
  match rt with
  | .git env =>
    cases ht : env.tempDirOk with
    | false =>
      rw [runBuild, ProgramBuilder.add_program_git, ht] at hm
      simp only [Bool.false_eq_true, if_false] at hm
      exact Or.inl hm
    | true =>
      cases hc : env.cloneExitSuccess with
      | false =>
        rw [runBuild, ProgramBuilder.add_program_git, ht] at hm
        simp only [hc, commandOutputInherited, Bool.false_eq_true,
          if_false, if_true] at hm
        exact Or.inl hm
      | true =>
        rw [runBuild, ProgramBuilder.add_program_git, ht] at hm
        simp only [hc, commandOutputInherited, if_true] at hm
        exact add_program_success_mem env.build db r h b f hm
  | .tar env =>
    cases ht : env.tempDirOk with
    | false =>
      rw [runBuild, ProgramBuilder.add_program_tar, ht] at hm
      simp only [Bool.false_eq_true, if_false] at hm
      exact Or.inl hm
    | true =>
      cases hu : env.unpackOk with
      | false =>
        rw [runBuild, ProgramBuilder.add_program_tar, ht] at hm
        simp only [hu, Bool.false_eq_true, if_false, if_true] at hm
        exact Or.inl hm
      | true =>
        rw [runBuild, ProgramBuilder.add_program_tar, ht] at hm
        simp only [hu, if_true] at hm
        exact add_program_success_mem env.build db r h b f hm

theorem try_send_error_delivered_of_rejected (r : BuildResponder)
    (e : Error) (h : r.sendOk r.sent = false) :
    (r.try_send_error e).delivered = r.delivered := by
  unfold BuildResponder.try_send_error
  simp [h]

example :
    (runRequest reqOk []).2 =
      [.ok (.Success (blakeTwo256 [1, 0]) [1] "a.wasm")] := by decide

example :
    (runRequest reqOk []).1 = [((blakeTwo256 [1, 0]).val, "pkgjson")] := by
  decide

/-- Claim C1: for every build request, a failure at any of the listed
pipeline stages (fetch, manifest read, build-tool invocation, stream io,
non-zero tool exit, artifact location, artifact read, serialization -
every error kind the pipeline produces before the post-commit `Success`
send, i.e. all but `Mpsc`) returns an error and leaves the store
byte-for-byte unchanged; moreover the only possible store mutation of a
run is the single commit-step insert, whose key is exactly the digest of
the artifact bytes plus metadata encoding - so it happens strictly after
the hash is computed. -/
theorem failed_stage_leaves_store_unchanged
    (rt : BuildRequestType) (db : Store) (r : BuildResponder) :
    (∀ e, (runBuild rt db r).result = .error e →
      preCommitFailure e = true → (runBuild rt db r).store = db) ∧
    ((runBuild rt db r).store = db ∨
      ∃ k v, commitDataOf rt = some (k, v) ∧
        (runBuild rt db r).store = Store.insert db k v) :=
  runBuild_store_spec rt db r

/-- Witness for C1: a concrete request whose manifest read fails returns
that error and leaves a nonempty store untouched. -/
theorem failed_stage_leaves_store_unchanged_witness :
    (runBuild (.tar ⟨true, true, envMetaErr⟩) [([7], "old")] r0).result =
      .error (.Metadata "manifest path does not exist") ∧
    (runBuild (.tar ⟨true, true, envMetaErr⟩) [([7], "old")] r0).store =
      [([7], "old")] :=
  ⟨rfl,
   (failed_stage_leaves_store_unchanged
      (.tar ⟨true, true, envMetaErr⟩) [([7], "old")] r0).1
     (.Metadata "manifest path does not exist") rfl rfl⟩

/-- Counterexample to claim C2 as stated: an accepted request whose caller
disconnected (every `try_send` rejected) runs a build that succeeds and
commits to the store, yet the sequence of events that reach the responder
channel contains no terminal event at all: the `Success` send is
rejected, and the `Mpsc` error that this produces is also rejected by
`try_send_error` and only logged. -/
theorem terminal_event_can_be_lost :
    (runRequest reqDead []).2 = [] ∧
    (runRequest reqDead []).1 =
      Store.insert [] (blakeTwo256 [1, 0]).val "pkgjson" := by
  decide

/-- Claim C2 (amended): provided the responder channel accepts every send
(the caller stays connected and the channel never fills), the event
sequence of an accepted request is zero or more chunk events followed by
exactly one terminal event (`Success` or an error item) - never zero
terminals, never two. -/
theorem events_are_chunks_then_one_terminal
    (req : BuildRequest) (db : Store)
    (hall : ∀ n, req.sendOk n = true) :
    ∃ cs t, (runRequest req db).2 = cs ++ [t] ∧
      (∀ c ∈ cs, isChunkItem c = true) ∧ isTerminalItem t = true := by
  obtain ⟨cs, hchunks, hsend, hcase⟩ :=
    runBuild_events_spec req.request_type db ⟨req.sendOk, 0, []⟩ hall
  rcases hcase with ⟨e, he, hres, hdel⟩ | ⟨h, b, f, hres, hdel⟩
  · refine ⟨cs, .err e, ?_, hchunks, rfl⟩
    simp only [runRequest, hres]
    rw [try_send_error_delivered_of_accepted _ e (by rw [hsend]; exact hall _)]
    rw [hdel]
    simp
  · refine ⟨cs, .ok (.Success h b f), ?_, hchunks, rfl⟩
    simp only [runRequest, hres]
    rw [hdel]
    simp

/-- Witness for the amended C2: a concrete request with a connected caller
streams one chunk and then the `Success` terminal. -/
theorem events_are_chunks_then_one_terminal_witness :
    ∃ cs t, (runRequest reqChunk []).2 = cs ++ [t] ∧
      (∀ c ∈ cs, isChunkItem c = true) ∧ isTerminalItem t = true :=
  events_are_chunks_then_one_terminal reqChunk [] (fun _ => rfl)

theorem handle_build_requests_append (l1 l2 : List BuildRequest)
    (db : Store) :
    handle_build_requests (l1 ++ l2) db =
      ((handle_build_requests l2 (handle_build_requests l1 db).1).1,
       (handle_build_requests l1 db).2 ++
         (handle_build_requests l2 (handle_build_requests l1 db).1).2) := by
  induction l1 generalizing db with
  | nil => simp [handle_build_requests]
  | cons req rest ih =>
    simp [handle_build_requests, ih]

theorem handle_build_requests_length (l : List BuildRequest) (db : Store) :
    (handle_build_requests l db).2.length = l.length := by
  induction l generalizing db with
  | nil => simp [handle_build_requests]
  | cons req rest ih =>
    simp [handle_build_requests, ih]

/-- Claim C3: the worker is one sequential consumer in arrival order:
processing a queue `l1 ++ l2` is processing all of `l1` first - each
request's pipeline run to completion, commits threaded through the store
in service order - and then all of `l2` starting from the store `l1`
left, with the per-request event streams in the same arrival order; and
every request yields exactly one completed event stream. -/
theorem worker_processes_requests_in_fifo_order
    (l1 l2 : List BuildRequest) (db : Store) :
    handle_build_requests (l1 ++ l2) db =
      ((handle_build_requests l2 (handle_build_requests l1 db).1).1,
       (handle_build_requests l1 db).2 ++
         (handle_build_requests l2 (handle_build_requests l1 db).1).2) ∧
    (handle_build_requests (l1 ++ l2) db).2.length =
      l1.length + l2.length := by
  refine ⟨handle_build_requests_append l1 l2 db, ?_⟩
  rw [handle_build_requests_length]
  simp

/-- Counterexample to claim C4 as stated: for the same build (artifact
bytes `[]`, default metadata) the streaming pipeline of `build.rs` and
the endpoint pipeline of `main.rs` feed different byte sequences to the
digest: `build.rs` appends the metadata encoding (here the single version
byte 0), `main.rs` hashes the artifact bytes alone.  The two hash
policies are not the same. -/
theorem digest_policies_differ_counterexample :
    buildDigestInput [] {} ≠ mainDigestInput [] := by decide

/-- Claim C4 (amended): the two code paths never agree: for every artifact
and every metadata record, the digest input of `build.rs` (artifact bytes
plus metadata encoding) differs from the digest input of `main.rs`
(artifact bytes alone), because the metadata encoding always ends with a
version byte and is therefore never empty. -/
theorem digest_input_policies_always_differ
    (binary : List Nat) (m : EntropyProgramMetadata) :
    (buildDigestInput binary m == mainDigestInput binary) = false := by
  rw [beq_eq_false_iff_ne]
  intro h
  have hlen := congrArg List.length h
  simp [buildDigestInput, mainDigestInput,
    EntropyProgramMetadata.to_bytes] at hlen

/-- Counterexample to claim C5: identical artifact bytes, different
participating manifest fields, identical digest: the fields are
concatenated with no separators or length prefixes, so the tuples
`("ab", none, none)` and `("a", "b", none)` encode - and hash -
identically.  The encoding is not injective. -/
theorem metadata_encoding_not_injective :
    m5a.configuration_schema ≠ m5b.configuration_schema ∧
    m5a.to_bytes = m5b.to_bytes ∧
    blakeTwo256 (buildDigestInput [1] m5a) =
      blakeTwo256 (buildDigestInput [1] m5b) := by
  decide

/-- Claim C5 (amended): for identical artifact bytes, two builds receive
the same digest input exactly when the byte encodings of their manifest
fields are equal; distinct field tuples are only guaranteed distinct
hashes when their (separator-free) encodings differ. -/
theorem digest_input_eq_iff_encoding_eq
    (binary : List Nat) (m1 m2 : EntropyProgramMetadata) :
    buildDigestInput binary m1 = buildDigestInput binary m2 ↔
      m1.to_bytes = m2.to_bytes := by
  unfold buildDigestInput
  constructor
  · exact fun h => List.append_cancel_left h
  · intro h
    rw [h]

/-- Counterexample to claim C6 as stated: a request whose working
directory has no descriptor file fails the external cargo-metadata read,
and the pipeline returns the `Metadata` error kind wrapping that failure
- not `MetadataMissingRootPackage`. -/
theorem missing_descriptor_error_kind_counterexample :
    (ProgramBuilder.add_program envMetaErr [] r0).result =
      .error (.Metadata "manifest path does not exist") ∧
    (ProgramBuilder.add_program envMetaErr [] r0).result ≠
      .error Error.MetadataMissingRootPackage ∧
    (ProgramBuilder.add_program envMetaErr [] r0).store = [] := by
  refine ⟨rfl, ?_, rfl⟩
  intro h
  exact Error.noConfusion (Except.error.inj h)

/-- Claim C6 (amended): a manifest without a root package terminates with
exactly `MetadataMissingRootPackage` and the store unchanged; a missing
descriptor file instead fails the cargo-metadata read and terminates with
the `Metadata` error kind, also with the store unchanged. -/
theorem manifest_failure_error_kinds
    (env : BuildEnv) (db : Store) (r : BuildResponder) :
    (∀ md, env.metadataExec = .ok md → md.root_package = none →
      (ProgramBuilder.add_program env db r).result =
        .error Error.MetadataMissingRootPackage ∧
      (ProgramBuilder.add_program env db r).store = db) ∧
    (∀ e, env.metadataExec = .error e →
      (ProgramBuilder.add_program env db r).result = .error (.Metadata e) ∧
      (ProgramBuilder.add_program env db r).store = db) := by
  constructor
  · intro md hm hr
    constructor <;> simp [ProgramBuilder.add_program, hm, hr]
  · intro e hm
    constructor <;> simp [ProgramBuilder.add_program, hm]

/-- Witness for the amended C6 at a concrete manifest without a root
package. -/
theorem manifest_failure_error_kinds_witness :
    (ProgramBuilder.add_program envNoRoot [] r0).result =
      .error Error.MetadataMissingRootPackage ∧
    (ProgramBuilder.add_program envNoRoot [] r0).store = [] :=
  (manifest_failure_error_kinds envNoRoot [] r0).1 mdNoRoot rfl rfl

/-- Counterexample to claim C7 as stated: there is no distinct
`ArtifactNotFound` kind in the code.  A build whose tool exits zero but
whose output directory holds no `.wasm` file fails with the same
`CompilationFailed` kind that a non-zero tool exit produces; the two are
distinguished only by the detail string. -/
theorem locate_failure_reuses_compilation_failed_kind :
    resultErrorKind (ProgramBuilder.add_program envNoArtifact [] r0) =
      some ErrorKind.CompilationFailed ∧
    resultErrorKind (ProgramBuilder.add_program envExitNonzero [] r0) =
      some ErrorKind.CompilationFailed ∧
    (ProgramBuilder.add_program envNoArtifact [] r0).result =
      .error (.CompilationFailed "Cannot find binary after compiling") :=
  ⟨rfl, rfl, rfl⟩

/-- Claim C7 (amended): a build whose tool exits zero but whose output
directory contains no file with the `.wasm` extension terminates with
`CompilationFailed "Cannot find binary after compiling"` - the kind the
code reuses for artifact-location failure - and the store is unchanged. -/
theorem no_wasm_artifact_gives_compilation_failed
    (env : BuildEnv) (db : Store) (r : BuildResponder) (md : CargoMetadata)
    (pkg : Package) (entries : List DirEntry)
    (hm : env.metadataExec = .ok md) (hr : md.root_package = some pkg)
    (hsp : env.spawnOk = true) (hso : env.stdoutPresent = true)
    (hse : env.stderrPresent = true)
    (hloop : (streamLoop env.stdoutReads env.stderrReads r).2 = true)
    (hw : env.waitOk = true) (hx : env.exitSuccess = true)
    (ho : env.outputDir = some entries)
    (hfind : get_binary_filename entries = none) :
    (ProgramBuilder.add_program env db r).result =
      .error (.CompilationFailed "Cannot find binary after compiling") ∧
    (ProgramBuilder.add_program env db r).store = db := by
  constructor <;>
    simp [ProgramBuilder.add_program, afterSpawn, commitStage,
      hm, hr, hsp, hso, hse, hloop, hw, hx, ho, hfind]

/-- Witness for the amended C7 at a concrete empty output directory. -/
theorem no_wasm_artifact_gives_compilation_failed_witness :
    (ProgramBuilder.add_program envNoArtifact [] r0).result =
      .error (.CompilationFailed "Cannot find binary after compiling") ∧
    (ProgramBuilder.add_program envNoArtifact [] r0).store = [] :=
  no_wasm_artifact_gives_compilation_failed envNoArtifact [] r0 md0 pkg0 []
    rfl rfl rfl rfl rfl rfl rfl rfl rfl rfl

/-- Counterexample to claim C8 as stated: a build whose artifact file is
empty still reaches `Success`, and the emitted event carries empty
artifact bytes - the pipeline never checks non-emptiness. -/
theorem success_event_with_empty_binary :
    (runRequest reqEmpty []).2 =
      [.ok (.Success (blakeTwo256 [0]) [] "a.wasm")] := by
  decide

/-- Claim C8 (amended): every `Success` event a request delivers carries a
fixed-size 32-byte hash and a filename ending in `.wasm` (the located
artifact's name, which matched the extension scan, or the `program.wasm`
fallback for a non-UTF-8 name); the artifact bytes are the located
file's exact contents, which may be empty. -/
theorem success_event_hash_size_and_filename
    (req : BuildRequest) (db : Store) (h : H256) (b : List Nat) (f : String)
    (hm : ChannelItem.ok (.Success h b f) ∈ (runRequest req db).2) :
    h.val.length = 32 ∧ ".wasm".data <:+ f.data := by
  have hmem : ChannelItem.ok (.Success h b f) ∈
      (runBuild req.request_type db ⟨req.sendOk, 0, []⟩).responder.delivered := by
    rcases hres : (runBuild req.request_type db ⟨req.sendOk, 0, []⟩).result with
      e | u
    · simp only [runRequest, hres] at hm
      set r1 := (runBuild req.request_type db ⟨req.sendOk, 0, []⟩).responder
      cases hacc : r1.sendOk r1.sent with
      | false =>
        rw [try_send_error_delivered_of_rejected r1 e hacc] at hm
        exact hm
      | true =>
        rw [try_send_error_delivered_of_accepted r1 e hacc] at hm
        rcases List.mem_append.mp hm with h2 | h2
        · exact h2
        · simp at h2
    · simp only [runRequest, hres] at hm
      exact hm
  rcases runBuild_success_mem req.request_type db ⟨req.sendOk, 0, []⟩
      h b f hmem with h2 | h2
  · simp at h2
  · exact h2

/-- Witness for the amended C8 at the concrete successful request. -/
theorem success_event_hash_size_and_filename_witness :
    (blakeTwo256 [1, 0]).val.length = 32 ∧
      ".wasm".data <:+ "a.wasm".data :=
  success_event_hash_size_and_filename reqOk [] (blakeTwo256 [1, 0]) [1]
    "a.wasm" (by decide)

/-- Claim C9: a declared `version-number` that is not representable as an
unsigned 8-bit integer (`as_u64` fails on negatives and non-integers, the
`u8` conversion fails at 256 and above) is silently treated as absent:
extraction yields `none`, the encoded version byte is 0, and the manifest
produces exactly the digest input of the same manifest declaring version
0 (or omitting the field, which also extracts to `none`). -/
theorem unrepresentable_version_treated_as_absent
    (j : Json) (p : List (String × Json)) (v : JNumber)
    (hp : entropyProgramSection j = some p)
    (hv : jGet p "version-number" = some (.num v))
    (hu : u8FromNumber v = none) :
    (extract_metadata j).version_number = none ∧
    (extract_metadata j).to_bytes =
      ({ extract_metadata j with version_number := some 0 }
        : EntropyProgramMetadata).to_bytes ∧
    ∀ binary, blakeTwo256 (buildDigestInput binary (extract_metadata j)) =
      blakeTwo256 (buildDigestInput binary
        { extract_metadata j with version_number := some 0 }) := by
  have hsec : ∃ m, j = Json.obj m ∧
      jGet m "entropy-program" = some (.obj p) := by
    rcases j with _ | b | n | s | xs | m
    · simp [entropyProgramSection] at hp
    · simp [entropyProgramSection] at hp
    · simp [entropyProgramSection] at hp
    · simp [entropyProgramSection] at hp
    · simp [entropyProgramSection] at hp
    · refine ⟨m, rfl, ?_⟩
      rcases hq : jGet m "entropy-program" with _ | q
      · simp [entropyProgramSection, hq] at hp
      · rcases q with _ | b2 | n2 | s2 | xs2 | p2
        · simp [entropyProgramSection, hq] at hp
        · simp [entropyProgramSection, hq] at hp
        · simp [entropyProgramSection, hq] at hp
        · simp [entropyProgramSection, hq] at hp
        · simp [entropyProgramSection, hq] at hp
        · simp [entropyProgramSection, hq] at hp
          subst hp
          rfl
  obtain ⟨m, rfl, hq⟩ := hsec
  have hver : (extract_metadata (Json.obj m)).version_number = none := by
    simp [extract_metadata, hq, hv, hu]
  have htb : (extract_metadata (Json.obj m)).to_bytes =
      ({ extract_metadata (Json.obj m) with version_number := some 0 }
        : EntropyProgramMetadata).to_bytes := by
    simp [EntropyProgramMetadata.to_bytes, hver]
  refine ⟨hver, htb, ?_⟩
  intro binary
  simp only [buildDigestInput]
  rw [htb]

/-- Witness for C9 at a concrete manifest declaring version 300. -/
theorem unrepresentable_version_treated_as_absent_witness :
    (extract_metadata jVer300).version_number = none ∧
    (extract_metadata jVer300).to_bytes =
      ({ extract_metadata jVer300 with version_number := some 0 }
        : EntropyProgramMetadata).to_bytes :=
  ⟨(unrepresentable_version_treated_as_absent jVer300
      [("version-number", .num (.uint 300)),
       ("configuration-schema", .str "sch")]
      (.uint 300) rfl rfl rfl).1,
   (unrepresentable_version_treated_as_absent jVer300
      [("version-number", .num (.uint 300)),
       ("configuration-schema", .str "sch")]
      (.uint 300) rfl rfl rfl).2.1⟩

/-- Claim C10: the git clone runs with `Stdio::inherit` on both streams,
so `Output.stderr` reads back empty whatever the child wrote to the
terminal, and a failed clone's `GitClone` error carries the empty string
as its detail text (the store is also unchanged). -/
theorem git_clone_failure_detail_is_empty
    (env : GitEnv) (db : Store) (r : BuildResponder)
    (ht : env.tempDirOk = true) (hc : env.cloneExitSuccess = false) :
    (ProgramBuilder.add_program_git env db r).result =
      .error (.GitClone "") ∧
    (ProgramBuilder.add_program_git env db r).store = db := by
  constructor <;>
    simp [ProgramBuilder.add_program_git, commandOutputInherited, ht, hc,
      fromUtf8Lossy]

/-- Witness for C10: a concrete failed clone whose child wrote `fatal` to
its (inherited) stderr still reports an empty detail string. -/
theorem git_clone_failure_detail_is_empty_witness :
    (ProgramBuilder.add_program_git gitEnvFail [] r0).result =
      .error (.GitClone "") ∧
    (ProgramBuilder.add_program_git gitEnvFail [] r0).store = [] :=
  git_clone_failure_detail_is_empty gitEnvFail [] r0 rfl rfl
